import Mathlib

/-!
Shallow embedding of the OrderAI repository's snapshot/validation core
(src/snapshot.ts and src/app.ts) together with theorems settling the
frozen claims about it.

JavaScript records (plain objects used as string-keyed maps, built by
repeated assignment) are modelled as association lists with last-wins
lookup (`jsLookup`); JavaScript string truthiness is `truthyS`.
-/

set_option autoImplicit false

namespace OrderAI

/-- Last-wins lookup in an association list: models a JS object built by
repeated assignment (`acc[k] = v` overwrites earlier bindings). -/
def jsLookup {α : Type} : List (String × α) → String → Option α
  | [], _ => none
  | (k, v) :: rest, key =>
    match jsLookup rest key with
    | some r => some r
    | none => if k == key then some v else none

/-- JS truthiness of a nullable string: null/undefined and the empty string
are falsy, every other string is truthy. -/
def truthyS : Option String → Bool
  | none => false
  | some s => s ≠ ""

/-- Character-wise model of JS `String.prototype.trim`: strip leading and
trailing whitespace. -/
def jsTrim (s : String) : String :=
  ⟨((s.data.dropWhile Char.isWhitespace).reverse.dropWhile Char.isWhitespace).reverse⟩

/-- Character-wise model of JS `String.prototype.toLowerCase`. -/
def jsToLower (s : String) : String :=
  ⟨s.data.map Char.toLower⟩

/-- Character-wise model of JS `String.prototype.startsWith`. -/
def jsStartsWith (s pre : String) : Bool :=
  pre.data.isPrefixOf s.data

/-- Character-wise model of JS `String.prototype.slice(n)`. -/
def jsDrop (s : String) (n : Nat) : String :=
  ⟨s.data.drop n⟩

/-- Product info as stored in `products_index` (snapshot.ts). -/
structure ProductInfo where
  name : String
  category : String
  price : Int
  deriving Repr, DecidableEq

/-- A normalized menu of the snapshot (snapshot.ts `normalizedMenus`). -/
structure Menu where
  id : String
  name : String
  price : Int
  description : Option String
  composition : List (String × Nat)
  allowed_product_ids : List String
  options_by_category : List (String × List (String × String))
  deriving Repr, DecidableEq

/-- One opening session of a day (snapshot.ts `hours`). -/
structure HourSession where
  from_ : String
  to_ : String
  deriving Repr, DecidableEq

/-- One day of the snapshot's `hours` list. -/
structure HourEntry where
  day : String
  is_open : Bool
  sessions : Option (List HourSession)
  deriving Repr, DecidableEq

/-- A normalized product of the snapshot. -/
structure Product where
  id : String
  name : String
  category : String
  price : Int
  deriving Repr, DecidableEq

/-- The snapshot assembled by `buildSnapshot` (snapshot.ts `Snapshot`).
The field `order_percent` embeds the source's order-ratio field (renamed
here for lexical reasons); no claim concerns it. -/
structure Snapshot where
  id_establishment : String
  name : String
  address : Option String
  phone : Option String
  order_percent : Option Int
  hours : List HourEntry
  products : List Product
  products_index : List (String × ProductInfo)
  menus : List Menu
  menus_index_by_id : List (String × Menu)
  menus_index_by_name : List (String × String)
  updated_at : String
  deriving Repr, DecidableEq

/-- Menu-reference coercion (app.ts `coerceMenuId`): an input that is already
a key of `menus_index_by_id` is returned unchanged; otherwise the input is
trimmed, lowercased, an optional `menu_` prefix is stripped, and the result
is looked up in `menus_index_by_name`; `mapped || null` collapses an empty
mapped id to null. -/
def coerceMenuId (input : String) (snapshot : Snapshot) : Option String :=
  if (jsLookup snapshot.menus_index_by_id input).isSome then some input
  else
    let lower := jsToLower (jsTrim input)
    let aliasName := if jsStartsWith lower "menu_" then jsDrop lower 5 else lower
    match jsLookup snapshot.menus_index_by_name aliasName with
    | some mapped => if mapped = "" then none else some mapped
    | none => none

/-- One proposed order detail (app.ts `add_details_order` items). -/
structure Detail where
  id_order : Option String
  id_product : Option String
  id_menu : Option String
  selected_products : Option (List String)
  quantity : Option Int
  note : Option String
  deriving Repr, DecidableEq

/-- Error message for a selected product id missing from `products_index`. -/
def invalidSelectedMsg (pid : String) : String :=
  "Producto seleccionado no válido: " ++ pid

/-- Error message for a selected product not allowed in the menu. -/
def disallowedMsg (menuName pid : String) : String :=
  "Producto no permitido en menú " ++ menuName ++ ": " ++ pid

/-- Error message for an incomplete selection of a required category. -/
def incompleteMsg (menuName cat : String) (qty : Nat) : String :=
  "Selección incompleta en \"" ++ menuName ++ "\" para \"" ++ cat ++
    "\" (esperado " ++ toString qty ++ ")."

/-- Tally loop of `validateMenuItems`: walk the selected product ids,
failing on an id missing from `products_index` or not allowed in the menu,
and counting resolved products by their category. -/
def tallySelected (snapshot : Snapshot) (menu : Menu) :
    List String → (String → Nat) → Except String (String → Nat)
  | [], counts => .ok counts
  | pid :: rest, counts =>
    match jsLookup snapshot.products_index pid with
    | none => .error (invalidSelectedMsg pid)
    | some p =>
      if pid ∈ menu.allowed_product_ids then
        tallySelected snapshot menu rest
          (fun c => if c = p.category then counts c + 1 else counts c)
      else .error (disallowedMsg menu.name pid)

/-- Composition loop of `validateMenuItems`: every category required by the
menu's composition must be tallied exactly the required number of times. -/
def checkComposition (menuName : String) (counts : String → Nat) :
    List (String × Nat) → Except String Unit
  | [] => .ok ()
  | (cat, qty) :: rest =>
    if counts cat ≠ qty then .error (incompleteMsg menuName cat qty)
    else checkComposition menuName counts rest

/-- Validation of one proposed detail (one iteration of the loop in
app.ts `validateMenuItems`). -/
def validateDetail (snapshot : Snapshot) (d : Detail) : Except String Unit :=
  if truthyS d.id_product then
    if (jsLookup snapshot.products_index (d.id_product.getD "")).isSome then .ok ()
    else .error ("Producto inexistente: " ++ d.id_product.getD "")
  else if truthyS d.id_menu then
    match jsLookup snapshot.menus_index_by_id (d.id_menu.getD "") with
    | none => .error ("Menú inexistente: " ++ d.id_menu.getD "")
    | some menu => do
      let counts ← tallySelected snapshot menu (d.selected_products.getD []) (fun _ => 0)
      checkComposition menu.name counts menu.composition
  else .ok ()

/-- Fail-fast validation of a proposed detail list (app.ts
`validateMenuItems`): `.ok ()` models `{ ok: true }`, `.error msg` models
`{ ok: false, error: msg }`. -/
def validateMenuItems (snapshot : Snapshot) : List Detail → Except String Unit
  | [] => .ok ()
  | d :: rest => do
    validateDetail snapshot d
    validateMenuItems snapshot rest

/-- Row of the `establishments` table, as read by `getEstablishmentData`. -/
structure EstablishmentRow where
  id_establishment : String
  name : String
  address : Option String
  phone_number : Option String
  order_percent : Option Int
  deriving Repr, DecidableEq

/-- One nested `session_schedule` row of a day. -/
structure SessionRow where
  opening_time : String
  closing_time : String
  deriving Repr, DecidableEq

/-- Row of the `days` table with its nested session rows. -/
structure DayRow where
  name : String
  is_open : Option Bool
  session_schedule : Option (List SessionRow)
  deriving Repr, DecidableEq

/-- Row of the `products` table. -/
structure ProductRow where
  id_product : String
  name : String
  category : String
  price : Int
  deriving Repr, DecidableEq

/-- One nested `menu_product` link row of a menu. -/
structure MenuProductRow where
  id_menu : String
  id_product : String
  deriving Repr, DecidableEq

/-- Row of the `menus` table with its nested allowed-product links. -/
structure MenuRow where
  id_menu : Option String
  name : String
  price : Int
  description : Option String
  category_requirements : Option (List (String × Nat))
  menu_product : Option (List MenuProductRow)
  deriving Repr, DecidableEq

/-- The data the four repository reads hand to `buildSnapshot`; `none`
models a fetch that returned null (record absent / read failed). -/
structure BuildInput where
  establishment : Option EstablishmentRow
  schedule : Option (List DayRow)
  products : Option (List ProductRow)
  menus : Option (List MenuRow)
  deriving Repr, DecidableEq

/-- The three throw sites of `buildSnapshot`, by the spec's taxonomy:
`notFound` is "Establecimiento no encontrado", `dataUnavailable` carries
which of horario/productos/menús was null, `invalidMenu` carries the name
of the menu lacking `id_menu`. -/
inductive BuildError where
  | notFound
  | dataUnavailable (what : String)
  | invalidMenu (menuName : String)
  deriving Repr, DecidableEq

/-- Category key used when grouping a product into `options_by_category`:
`prod.category || 'other'` in snapshot.ts. -/
def catOr (c : String) : String :=
  if c = "" then "other" else c

/-- Append an option entry to a category's list, creating the category key
at the end on first use (JS `options_by_category[cat].push(...)`). -/
def pushOption (obc : List (String × List (String × String))) (cat : String)
    (entry : String × String) : List (String × List (String × String)) :=
  if obc.any (fun p => p.1 = cat) then
    obc.map (fun p => if p.1 = cat then (p.1, p.2 ++ [entry]) else p)
  else obc ++ [(cat, [entry])]

/-- One step of the `options_by_category` grouping loop: a pid that does not
resolve in `products_index` is skipped, a resolved one is pushed under its
category. -/
def optStep (pidx : List (String × ProductInfo))
    (obc : List (String × List (String × String))) (pid : String) :
    List (String × List (String × String)) :=
  match jsLookup pidx pid with
  | none => obc
  | some prod => pushOption obc (catOr prod.category) (pid, prod.name)

/-- Build a menu's `options_by_category`: group the allowed product ids by
their category from `products_index`, silently skipping ids that do not
resolve (snapshot.ts lines 76-83). -/
def buildOptions (pidx : List (String × ProductInfo)) (allowed : List String) :
    List (String × List (String × String)) :=
  allowed.foldl (optStep pidx) []

/-- Normalize one menu row (body of the `menus.map` in `buildSnapshot`):
a falsy `id_menu` throws, otherwise composition/allowed ids/options are
assembled. -/
def normalizeMenu (pidx : List (String × ProductInfo)) (m : MenuRow) :
    Except BuildError Menu :=
  match m.id_menu with
  | none => .error (.invalidMenu m.name)
  | some i =>
    if i = "" then .error (.invalidMenu m.name)
    else
      let allowed := (m.menu_product.getD []).map (fun mp => mp.id_product)
      .ok
        { id := i
          name := m.name
          price := m.price
          description := m.description
          composition := m.category_requirements.getD []
          allowed_product_ids := allowed
          options_by_category := buildOptions pidx allowed }

/-- Normalize every menu row, fail-fast on the first invalid one (the JS
`menus.map` whose callback throws). -/
def normalizeMenus (pidx : List (String × ProductInfo)) :
    List MenuRow → Except BuildError (List Menu)
  | [] => .ok []
  | m :: rest =>
    match normalizeMenu pidx m with
    | .error e => .error e
    | .ok nm =>
      match normalizeMenus pidx rest with
      | .error e => .error e
      | .ok rest' => .ok (nm :: rest')

/-- Normalize the product rows (snapshot.ts `normalizedProducts`). -/
def normalizeProducts (products : List ProductRow) : List Product :=
  products.map (fun p =>
    { id := p.id_product, name := p.name, category := p.category, price := p.price })

/-- Build `products_index` from the product rows (snapshot.ts reduce over
`normalizedProducts`; last assignment wins under `jsLookup`). -/
def productsIndexOf (products : List ProductRow) : List (String × ProductInfo) :=
  (normalizeProducts products).map
    (fun p => (p.id, { name := p.name, category := p.category, price := p.price }))

/-- Normalize one day row into an `hours` entry. -/
def normalizeDay (d : DayRow) : HourEntry :=
  { day := d.name
    is_open := d.is_open.getD false
    sessions :=
      if (d.session_schedule.getD []).length ≠ 0 then
        some ((d.session_schedule.getD []).map
          (fun s => { from_ := s.opening_time, to_ := s.closing_time }))
      else none }

/-- Snapshot builder (snapshot.ts `buildSnapshot`), with the repository
reads supplied as `inp` and the build timestamp as `now`. -/
def buildSnapshot (inp : BuildInput) (now : String) : Except BuildError Snapshot :=
  match inp.establishment with
  | none => .error .notFound
  | some establishment =>
    match inp.schedule with
    | none => .error (.dataUnavailable "Horario no disponible")
    | some schedule =>
      match inp.products with
      | none => .error (.dataUnavailable "Productos no disponibles")
      | some products =>
        match inp.menus with
        | none => .error (.dataUnavailable "Menús no disponibles")
        | some menus =>
          match normalizeMenus (productsIndexOf products) menus with
          | .error e => .error e
          | .ok normalizedMenus =>
            .ok
              { id_establishment := establishment.id_establishment
                name := establishment.name
                address := establishment.address
                phone := establishment.phone_number
                order_percent := establishment.order_percent
                hours := schedule.map normalizeDay
                products := normalizeProducts products
                products_index := productsIndexOf products
                menus := normalizedMenus
                menus_index_by_id := normalizedMenus.map (fun m => (m.id, m))
                menus_index_by_name :=
                  normalizedMenus.map (fun m => (jsToLower m.name, m.id))
                updated_at := now }

/-- Outcome classifier for `buildSnapshot`, by the spec's error taxonomy. -/
inductive BuildOutcomeKind where
  | okK
  | notFoundK
  | dataUnavailableK
  | invalidMenuK
  deriving Repr, DecidableEq

/-- Classify a `buildSnapshot` result. -/
def outcomeKind : Except BuildError Snapshot → BuildOutcomeKind
  | .ok _ => .okK
  | .error .notFound => .notFoundK
  | .error (.dataUnavailable _) => .dataUnavailableK
  | .error (.invalidMenu _) => .invalidMenuK

/-- Chat id injected by the client (app.ts `idChatFromClient`). -/
def idChatFromClient : String := "855e9331-7bb6-434c-81e6-56d951f6116b"

/-- Establishment id injected by the client (app.ts
`idEstablishmentFromClient`). -/
def idEstablishmentFromClient : String := "c7831588-4953-40c5-bdcf-02809d8a2370"

/-- Per-conversation mutable state of app.ts (`lastSnapshot`,
`currentOrderId`). -/
structure SessionState where
  lastSnapshot : Option Snapshot
  currentOrderId : Option String
  deriving Repr, DecidableEq

/-- Raw arguments of an `add_order` tool call (every field may be absent:
the model controls them). -/
structure AddOrderArgs where
  id_chat : Option String
  id_establishment : Option String
  name : Option String
  is_pickup : Option Bool
  address : Option String
  deriving Repr, DecidableEq

/-- An order row as forwarded to `insertOrder` (app.ts `safeArgs`). -/
structure OrderData where
  id_chat : String
  id_establishment : String
  name : String
  is_pickup : Bool
  address : Option String
  deriving Repr, DecidableEq

/-- Result of one `insertOrder` call, as consumed by app.ts: the HTTP-like
status, `error.message` (read when status ≠ 201) and `data[0].id_order`
(read when status = 201). -/
structure OrderInsertResult where
  status : Int
  errorMessage : String
  firstIdOrder : String
  deriving Repr, DecidableEq

/-- Function response pushed back to the model by the `add_order` branch:
either `{ id_order }` or `{ success: false, error }`. -/
inductive AddOrderResp where
  | idOrder (id : String)
  | failure (error : String)
  deriving Repr, DecidableEq

/-- Outcome of one `add_order` dispatch: the new session state, the
response part, and the list of order rows forwarded to `insertOrder`. -/
structure AddOrderOutcome where
  state : SessionState
  response : AddOrderResp
  inserts : List OrderData
  deriving Repr, DecidableEq

/-- The `add_order` branch of `handleFunctionCalls` (app.ts lines 231-281):
an already-open order short-circuits with its id; otherwise arguments are
coerced into `safeArgs`, a truthy address overrides `is_pickup` to false,
delivery without an address is rejected, and otherwise the order is
inserted, `currentOrderId` being set only on status 201. -/
def handleAddOrder (st : SessionState) (rawArgs : AddOrderArgs)
    (insertResult : OrderInsertResult) : AddOrderOutcome :=
  if truthyS st.currentOrderId then
    { state := st, response := .idOrder (st.currentOrderId.getD ""), inserts := [] }
  else
    let safeArgs : OrderData :=
      { id_chat := idChatFromClient
        id_establishment := idEstablishmentFromClient
        name := rawArgs.name.getD ""
        is_pickup := rawArgs.is_pickup.getD true
        address := rawArgs.address }
    let safeArgs :=
      if truthyS safeArgs.address && safeArgs.is_pickup then
        { safeArgs with is_pickup := false }
      else safeArgs
    if !safeArgs.is_pickup && !truthyS safeArgs.address then
      { state := st
        response := .failure "Falta dirección para entrega a domicilio."
        inserts := [] }
    else if insertResult.status ≠ 201 then
      { state := st
        response := .failure insertResult.errorMessage
        inserts := [safeArgs] }
    else
      { state := { st with currentOrderId := some insertResult.firstIdOrder }
        response := .idOrder insertResult.firstIdOrder
        inserts := [safeArgs] }

/-- Result of one `insertDetailsOrder` call as consumed by app.ts. -/
structure DetailsInsertResult where
  status : Int
  errorMessage : String
  deriving Repr, DecidableEq

/-- Function response pushed back by the `add_details_order` branch.
`noOpenOrder` models `{ success: false, message: "No hay pedido abierto.
Crea uno con add_order." }`; `validationFailure` carries the first
validation error; `thrown` models the `buildSnapshot` rejection escaping
the handler (no response part is pushed). -/
inductive AddDetailsResp where
  | noOpenOrder
  | validationFailure (message : String)
  | insertFailure (error : String)
  | ok
  | thrown
  deriving Repr, DecidableEq

/-- Outcome of one `add_details_order` dispatch: new session state, the
response, and the detail lists forwarded to `insertDetailsOrder`. -/
structure AddDetailsOutcome where
  state : SessionState
  response : AddDetailsResp
  forwarded : List (List Detail)
  deriving Repr, DecidableEq

/-- Menu-id coercion of a single detail (app.ts lines 308-316): a truthy
`id_menu` that is not a key of `menus_index_by_id` is rewritten to
`coerceMenuId`'s result when that is non-null. -/
def coerceDetail (snapshot : Snapshot) (d : Detail) : Detail :=
  if truthyS d.id_menu &&
      (jsLookup snapshot.menus_index_by_id (d.id_menu.getD "")).isNone then
    match coerceMenuId (d.id_menu.getD "") snapshot with
    | some mapped => { d with id_menu := some mapped }
    | none => d
  else d

/-- Menu-id coercion pass over the whole detail list. -/
def coerceDetails (snapshot : Snapshot) (details : List Detail) : List Detail :=
  details.map (coerceDetail snapshot)

/-- Steps of the `add_details_order` branch after an open order and a
snapshot are in hand: force `id_order`, coerce menu ids, validate, and
forward to persistence only on validation success. -/
def addDetailsWithSnapshot (st : SessionState) (snapshot : Snapshot)
    (details : List Detail) (insertRes : DetailsInsertResult) : AddDetailsOutcome :=
  match validateMenuItems snapshot (coerceDetails snapshot details) with
  | .error msg =>
    { state := { st with lastSnapshot := some snapshot }
      response := .validationFailure msg
      forwarded := [] }
  | .ok _ =>
    if insertRes.status ≠ 201 then
      { state := { st with lastSnapshot := some snapshot }
        response := .insertFailure insertRes.errorMessage
        forwarded := [coerceDetails snapshot details] }
    else
      { state := { st with lastSnapshot := some snapshot }
        response := .ok
        forwarded := [coerceDetails snapshot details] }

/-- The `add_details_order` branch of `handleFunctionCalls` (app.ts lines
282-341): non-array details default to `[]`; with no truthy open order id
the branch fails with the no-open-order message and inserts nothing;
otherwise every detail's `id_order` is overwritten with the open order id,
the snapshot is taken from the cache or fetched (`fetch` is the result of
that `buildSnapshot` call, whose failure escapes as an exception), menu ids
are coerced, the list is validated fail-fast, and only a validated list is
forwarded to `insertDetailsOrder`. -/
def handleAddDetailsOrder (st : SessionState) (argsDetails : Option (List Detail))
    (fetch : Except BuildError Snapshot) (insertRes : DetailsInsertResult) :
    AddDetailsOutcome :=
  let details := argsDetails.getD []
  if truthyS st.currentOrderId then
    let oid := st.currentOrderId.getD ""
    let details := details.map (fun d => { d with id_order := some oid })
    match st.lastSnapshot with
    | some snapshot => addDetailsWithSnapshot st snapshot details insertRes
    | none =>
      match fetch with
      | .error _ => { state := st, response := .thrown, forwarded := [] }
      | .ok snapshot => addDetailsWithSnapshot st snapshot details insertRes
  else
    { state := st, response := .noOpenOrder, forwarded := [] }

/-- Number of selected product ids whose product (looked up in
`products_index`) has category `cat`. -/
def countCat (snapshot : Snapshot) (sel : List String) (cat : String) : Nat :=
  (sel.filter (fun pid =>
    match jsLookup snapshot.products_index pid with
    | some p => p.category == cat
    | none => false)).length

theorem countCat_nil (S : Snapshot) (cat : String) : countCat S [] cat = 0 := rfl

theorem countCat_cons (S : Snapshot) (pid : String) (rest : List String)
    (cat : String) (p : ProductInfo) (hp : jsLookup S.products_index pid = some p) :
    countCat S (pid :: rest) cat =
      (if p.category = cat then 1 else 0) + countCat S rest cat := by
  unfold countCat
  simp only [List.filter_cons, hp]
  by_cases h : p.category = cat
  · simp [h]
    omega
  · simp [h]

theorem tallySelected_eq_ok (S : Snapshot) (M : Menu) (sel : List String)
    (hsel : ∀ pid ∈ sel, (jsLookup S.products_index pid).isSome ∧
      pid ∈ M.allowed_product_ids) :
    ∀ counts, tallySelected S M sel counts =
      .ok (fun c => counts c + countCat S sel c) := by
  induction sel with
  | nil => intro counts; simp [tallySelected, countCat_nil]
  | cons pid rest ih =>
    intro counts
    obtain ⟨hsome, hallow⟩ := hsel pid (List.mem_cons_self _ _)
    obtain ⟨p, hp⟩ := Option.isSome_iff_exists.mp hsome
    have ih' := ih (fun pid hmem => hsel pid (List.mem_cons_of_mem _ hmem))
    unfold tallySelected
    rw [hp]
    simp only [hallow, if_pos]
    rw [ih']
    congr 1
    funext c
    rw [countCat_cons S pid rest c p hp]
    by_cases hc : c = p.category
    · subst hc
      simp [eq_comm]
      omega
    · have : ¬ (p.category = c) := fun h => hc h.symm
      simp [hc, this]

theorem checkComposition_ok_iff (name : String) (counts : String → Nat)
    (comp : List (String × Nat)) :
    checkComposition name counts comp = .ok () ↔ ∀ p ∈ comp, counts p.1 = p.2 := by
  induction comp with
  | nil => simp [checkComposition]
  | cons hd tl ih =>
    obtain ⟨cat, qty⟩ := hd
    unfold checkComposition
    by_cases h : counts cat = qty
    · simp [h, ih]
    · simp [h]

theorem checkComposition_error_form (name : String) (counts : String → Nat)
    (comp : List (String × Nat))
    (h : checkComposition name counts comp ≠ .ok ()) :
    ∃ cat qty, (cat, qty) ∈ comp ∧ counts cat ≠ qty ∧
      checkComposition name counts comp = .error (incompleteMsg name cat qty) := by
  induction comp with
  | nil => simp [checkComposition] at h
  | cons hd tl ih =>
    obtain ⟨cat, qty⟩ := hd
    unfold checkComposition at h ⊢
    by_cases hc : counts cat = qty
    · simp only [hc, ne_eq, not_true_eq_false, if_neg, if_false] at h ⊢
      obtain ⟨cat', qty', hmem, hne, heq⟩ := ih (by simpa using h)
      exact ⟨cat', qty', List.mem_cons_of_mem _ hmem, hne, by simpa using heq⟩
    · refine ⟨cat, qty, List.mem_cons_self _ _, hc, ?_⟩
      simp [hc]

theorem validateMenuItems_singleton (S : Snapshot) (d : Detail) :
    validateMenuItems S [d] = validateDetail S d := by
  show Except.bind (validateDetail S d) (fun _ => validateMenuItems S []) =
    validateDetail S d
  cases h : validateDetail S d with
  | ok u => cases u; simp [Except.bind, validateMenuItems]
  | error e => simp [Except.bind]

/-- Sample menu used to exercise the validator at concrete inputs. -/
def sampleMenu : Menu :=
  { id := "m1"
    name := "Combo Dulce"
    price := 10
    description := none
    composition := [("main", 1), ("drink", 1)]
    allowed_product_ids := ["p1", "p2"]
    options_by_category := [("main", [("p1", "Burger")]), ("drink", [("p2", "Cola")])] }

/-- Sample snapshot with two products and one menu. -/
def sampleSnapshot : Snapshot :=
  { id_establishment := idEstablishmentFromClient
    name := "Bar"
    address := none
    phone := none
    order_percent := none
    hours := []
    products := [⟨"p1", "Burger", "main", 5⟩, ⟨"p2", "Cola", "drink", 2⟩]
    products_index := [("p1", ⟨"Burger", "main", 5⟩), ("p2", ⟨"Cola", "drink", 2⟩)]
    menus := [sampleMenu]
    menus_index_by_id := [("m1", sampleMenu)]
    menus_index_by_name := [("combo dulce", "m1")]
    updated_at := "t" }

/-- Sample detail selecting both required products of `sampleMenu`. -/
def sampleMenuDetail : Detail :=
  { id_order := none
    id_product := none
    id_menu := some "m1"
    selected_products := some ["p1", "p2"]
    quantity := some 1
    note := none }

/-- Claim C1: for a detail naming menu `M` whose selected product ids all
exist in `products_index` and in `M.allowed_product_ids`, validation
succeeds iff every category required by `M.composition` is selected exactly
the required number of times; on failure the result is the incomplete-
selection error naming a mismatching category and its expected count, and
categories outside the composition never by themselves cause rejection
(the backward direction of the iff quantifies only over composition
entries). -/
theorem claim1_menu_composition_exact
    (S : Snapshot) (d : Detail) (mid : String) (M : Menu)
    (hprod : truthyS d.id_product = false)
    (hmenu : d.id_menu = some mid) (hmid : mid ≠ "")
    (hM : jsLookup S.menus_index_by_id mid = some M)
    (hsel : ∀ pid ∈ d.selected_products.getD [],
      (jsLookup S.products_index pid).isSome ∧ pid ∈ M.allowed_product_ids) :
    (validateMenuItems S [d] = .ok () ↔
      ∀ p ∈ M.composition, countCat S (d.selected_products.getD []) p.1 = p.2) ∧
    (validateMenuItems S [d] ≠ .ok () →
      ∃ cat qty, (cat, qty) ∈ M.composition ∧
        countCat S (d.selected_products.getD []) cat ≠ qty ∧
        validateMenuItems S [d] = .error (incompleteMsg M.name cat qty)) := by
  have htm : truthyS d.id_menu = true := by
    rw [hmenu]
    simpa [truthyS] using hmid
  have hv : validateMenuItems S [d] =
      checkComposition M.name
        (fun c => countCat S (d.selected_products.getD []) c) M.composition := by
    rw [validateMenuItems_singleton]
    unfold validateDetail
    rw [hprod, htm]
    simp only [Bool.false_eq_true, if_false, if_true]
    rw [hmenu]
    simp only [Option.getD_some]
    rw [hM]
    show Except.bind (tallySelected S M (d.selected_products.getD []) (fun _ => 0))
      (fun counts => checkComposition M.name counts M.composition) = _
    rw [tallySelected_eq_ok S M _ hsel]
    show checkComposition M.name
      (fun c => (fun _ => 0) c + countCat S (d.selected_products.getD []) c)
      M.composition = _
    congr 1
    funext c
    simp
  constructor
  · rw [hv]
    exact checkComposition_ok_iff M.name _ M.composition
  · rw [hv]
    intro h
    exact checkComposition_error_form M.name _ M.composition h

/-- Witness for C1 at `sampleSnapshot` and `sampleMenuDetail`. -/
theorem claim1_menu_composition_exact_witness :
    (validateMenuItems sampleSnapshot [sampleMenuDetail] = .ok () ↔
      ∀ p ∈ sampleMenu.composition,
        countCat sampleSnapshot (sampleMenuDetail.selected_products.getD []) p.1 =
          p.2) ∧
    (validateMenuItems sampleSnapshot [sampleMenuDetail] ≠ .ok () →
      ∃ cat qty, (cat, qty) ∈ sampleMenu.composition ∧
        countCat sampleSnapshot (sampleMenuDetail.selected_products.getD []) cat ≠
          qty ∧
        validateMenuItems sampleSnapshot [sampleMenuDetail] =
          .error (incompleteMsg sampleMenu.name cat qty)) :=
  claim1_menu_composition_exact sampleSnapshot sampleMenuDetail "m1" sampleMenu
    rfl rfl (by decide) (by decide) (by decide)

/-- A detail referencing both a product id and a menu id, with quantity 0. -/
def bothIdsDetail : Detail :=
  { id_order := none
    id_product := some "p1"
    id_menu := some "m1"
    selected_products := none
    quantity := some 0
    note := none }

/-- Counterexample to C5: `validateMenuItems` accepts a detail that names
both a product id and a menu id and carries quantity 0 — exclusivity and
the quantity lower bound are not enforced by validation. -/
theorem claim5_counterexample :
    validateMenuItems sampleSnapshot [bothIdsDetail] = .ok () ∧
    truthyS bothIdsDetail.id_product = true ∧
    truthyS bothIdsDetail.id_menu = true ∧
    bothIdsDetail.quantity = some 0 :=
  ⟨rfl, rfl, rfl, rfl⟩

/-- A detail carrying neither a product id nor a menu id. -/
def emptyDetail : Detail :=
  { id_order := none
    id_product := none
    id_menu := none
    selected_products := none
    quantity := some 0
    note := none }

/-- Claim C5 (amended): validation does not enforce product/menu mutual
exclusivity or quantity ≥ 1; a detail with a truthy product id is accepted
exactly when that id exists in `products_index`, irrespective of its menu
fields and quantity, and a detail with neither a truthy product id nor a
truthy menu id is accepted unconditionally. -/
theorem claim5_amended_product_check_only (S : Snapshot) (d : Detail) :
    (truthyS d.id_product = true →
      (validateMenuItems S [d] = .ok () ↔
        (jsLookup S.products_index (d.id_product.getD "")).isSome = true)) ∧
    (truthyS d.id_product = false → truthyS d.id_menu = false →
      validateMenuItems S [d] = .ok ()) := by
  constructor
  · intro h
    rw [validateMenuItems_singleton]
    unfold validateDetail
    rw [h]
    by_cases hl : (jsLookup S.products_index (d.id_product.getD "")).isSome = true
    · simp [hl]
    · simp [hl]
  · intro hp hm
    rw [validateMenuItems_singleton]
    unfold validateDetail
    rw [hp, hm]
    simp

/-- Witness for the amended C5: the product-id clause at `bothIdsDetail`
and the neither-id clause at `emptyDetail`. -/
theorem claim5_amended_product_check_only_witness :
    (validateMenuItems sampleSnapshot [bothIdsDetail] = .ok () ↔
      (jsLookup sampleSnapshot.products_index
        (bothIdsDetail.id_product.getD "")).isSome = true) ∧
    validateMenuItems sampleSnapshot [emptyDetail] = .ok () :=
  ⟨(claim5_amended_product_check_only sampleSnapshot bothIdsDetail).1 rfl,
    (claim5_amended_product_check_only sampleSnapshot emptyDetail).2 rfl rfl⟩

/-- Modelled from the spec (claim C6's wording of 4.3): the claim's
coercion algorithm exactly as worded — an input that is a key of
`menus_index_by_id` is returned unchanged, otherwise the input is
lowercased, an optional case-insensitive MENU_ prefix token is stripped,
and the remainder is looked up in `menus_index_by_name`; null when no
resolution exists. (No whitespace trimming: the claim does not mention
it.) -/
def coerceMenuIdClaim (input : String) (snapshot : Snapshot) : Option String :=
  if (jsLookup snapshot.menus_index_by_id input).isSome then some input
  else
    let lower := jsToLower input
    let aliasName := if jsStartsWith lower "menu_" then jsDrop lower 5 else lower
    jsLookup snapshot.menus_index_by_name aliasName

/-- Counterexample to C6: on the input `" combo dulce"` (leading space) the
code trims and resolves the menu, while the claim's algorithm (which never
trims) finds no resolution. -/
theorem claim6_counterexample :
    coerceMenuId " combo dulce" sampleSnapshot = some "m1" ∧
    coerceMenuIdClaim " combo dulce" sampleSnapshot = none := by
  constructor <;> rfl

/-- Alias key computed by `coerceMenuId` before the name lookup: trim,
lowercase, strip one optional `menu_` prefix. -/
def menuAliasKey (input : String) : String :=
  let lower := jsToLower (jsTrim input)
  if jsStartsWith lower "menu_" then jsDrop lower 5 else lower

/-- Claim C6 (amended): an input that is already a key of
`menus_index_by_id` is returned unchanged; otherwise the input is trimmed
of surrounding whitespace, lowercased, an optional case-insensitive MENU_
prefix token is stripped, and the remainder is looked up in
`menus_index_by_name`, a non-empty mapped id being returned; in every
other case the result is null. -/
theorem claim6_amended_coercion (input r : String) (s : Snapshot) :
    coerceMenuId input s = some r ↔
      ((jsLookup s.menus_index_by_id input).isSome = true ∧ r = input) ∨
      ((jsLookup s.menus_index_by_id input).isSome = false ∧
        jsLookup s.menus_index_by_name (menuAliasKey input) = some r ∧
        r ≠ "") := by
  unfold coerceMenuId menuAliasKey
  by_cases hid : (jsLookup s.menus_index_by_id input).isSome = true
  · simp only [hid, if_true, true_and, Bool.true_eq_false, false_and, or_false]
    constructor
    · intro h
      exact (Option.some_injective _ h).symm
    · intro h
      rw [h]
  · have hid' : (jsLookup s.menus_index_by_id input).isSome = false := by
      simpa using hid
    simp only [hid', Bool.false_eq_true, if_false, true_and, false_and, false_or]
    cases hname : jsLookup s.menus_index_by_name
        (if jsStartsWith (jsToLower (jsTrim input)) "menu_" then
          jsDrop (jsToLower (jsTrim input)) 5
         else jsToLower (jsTrim input)) with
    | none => simp
    | some mapped =>
      by_cases hm : mapped = ""
      · subst hm
        simp only [if_pos rfl]
        constructor
        · intro h
          exact Option.noConfusion h
        · rintro ⟨h1, h2⟩
          exact absurd (Option.some_injective _ h1).symm h2
      · simp only [if_neg hm]
        constructor
        · intro h
          have hmr := Option.some_injective _ h
          exact ⟨h, hmr ▸ hm⟩
        · rintro ⟨h1, -⟩
          exact h1

/-- Witness for the amended C6 at the MENU_-prefixed input. -/
theorem claim6_amended_coercion_witness :
    coerceMenuId "MENU_Combo Dulce" sampleSnapshot = some "m1" ↔
      ((jsLookup sampleSnapshot.menus_index_by_id "MENU_Combo Dulce").isSome = true ∧
        "m1" = "MENU_Combo Dulce") ∨
      ((jsLookup sampleSnapshot.menus_index_by_id "MENU_Combo Dulce").isSome = false ∧
        jsLookup sampleSnapshot.menus_index_by_name
          (menuAliasKey "MENU_Combo Dulce") = some "m1" ∧
        "m1" ≠ "") :=
  claim6_amended_coercion "MENU_Combo Dulce" "m1" sampleSnapshot

theorem truthyS_none : truthyS none = false := rfl

theorem truthyS_some_of_ne (s : String) (h : s ≠ "") : truthyS (some s) = true := by
  simp [truthyS, h]

/-- With a truthy open order id, `add_order` short-circuits: it answers the
existing id and performs no insert. -/
theorem handleAddOrder_short (st : SessionState) (a : AddOrderArgs)
    (r : OrderInsertResult) (oid : String)
    (h : st.currentOrderId = some oid) (hne : oid ≠ "") :
    handleAddOrder st a r =
      { state := st, response := .idOrder oid, inserts := [] } := by
  unfold handleAddOrder
  rw [h, truthyS_some_of_ne oid hne]
  simp [h]

/-- With no open order, an `.idOrder` response from `add_order` can only
come from the successful-insert branch: the insert happened, the state now
carries the inserted id, and the response echoes it. -/
theorem handleAddOrder_created (st : SessionState) (a : AddOrderArgs)
    (r : OrderInsertResult) (i : String)
    (h0 : st.currentOrderId = none)
    (h : (handleAddOrder st a r).response = .idOrder i) :
    r.status = 201 ∧ i = r.firstIdOrder ∧
    (handleAddOrder st a r).state.currentOrderId = some i ∧
    (handleAddOrder st a r).inserts.length = 1 := by
  unfold handleAddOrder at h ⊢
  rw [h0] at h ⊢
  simp only [truthyS_none, Bool.false_eq_true, if_false] at h ⊢
  split_ifs at h ⊢ <;> simp_all

/-- Claim C2: a second `add_order` while an order is open returns the same
order id as the first call and performs no second insert — exactly one
insert per open order. -/
theorem claim2_add_order_idempotent
    (st : SessionState) (a1 a2 : AddOrderArgs) (r1 r2 : OrderInsertResult)
    (i : String)
    (h0 : st.currentOrderId = none)
    (hresp : (handleAddOrder st a1 r1).response = .idOrder i)
    (hi : i ≠ "") :
    (handleAddOrder (handleAddOrder st a1 r1).state a2 r2).response =
      .idOrder i ∧
    (handleAddOrder (handleAddOrder st a1 r1).state a2 r2).inserts = [] ∧
    (handleAddOrder st a1 r1).inserts.length = 1 := by
  obtain ⟨-, -, hstate, hlen⟩ := handleAddOrder_created st a1 r1 i h0 hresp
  have hshort := handleAddOrder_short (handleAddOrder st a1 r1).state a2 r2 i
    hstate hi
  rw [hshort]
  exact ⟨rfl, rfl, hlen⟩

/-- Empty session state: no snapshot cached, no open order. -/
def freshSession : SessionState := { lastSnapshot := none, currentOrderId := none }

/-- Sample `add_order` arguments for a pickup order. -/
def pickupArgs : AddOrderArgs :=
  { id_chat := none
    id_establishment := none
    name := some "Ana"
    is_pickup := some true
    address := none }

/-- Witness for C2: two calls with successful insert results. -/
theorem claim2_add_order_idempotent_witness :
    (handleAddOrder (handleAddOrder freshSession pickupArgs
        ⟨201, "", "ord-1"⟩).state pickupArgs ⟨201, "", "ord-2"⟩).response =
      .idOrder "ord-1" ∧
    (handleAddOrder (handleAddOrder freshSession pickupArgs
        ⟨201, "", "ord-1"⟩).state pickupArgs ⟨201, "", "ord-2"⟩).inserts = [] ∧
    (handleAddOrder freshSession pickupArgs ⟨201, "", "ord-1"⟩).inserts.length = 1 :=
  claim2_add_order_idempotent freshSession pickupArgs pickupArgs
    ⟨201, "", "ord-1"⟩ ⟨201, "", "ord-2"⟩ "ord-1" rfl (by decide) (by decide)

/-- Claim C10: in `add_order`, a non-empty address together with
`is_pickup = true` is forwarded as a delivery order: the pickup flag is
overridden to false, and (when no order is open) the insert does happen
with `is_pickup = false`. -/
theorem claim10_address_overrides_pickup
    (st : SessionState) (args : AddOrderArgs) (r : OrderInsertResult) (a : String)
    (haddr : args.address = some a) (ha : a ≠ "")
    (hp : args.is_pickup = some true) :
    (∀ o ∈ (handleAddOrder st args r).inserts, o.is_pickup = false) ∧
    (st.currentOrderId = none →
      (handleAddOrder st args r).inserts =
        [{ id_chat := idChatFromClient
           id_establishment := idEstablishmentFromClient
           name := args.name.getD ""
           is_pickup := false
           address := some a }]) := by
  have haddrT : truthyS args.address = true := by
    rw [haddr]; exact truthyS_some_of_ne a ha
  cases hcur : truthyS st.currentOrderId with
  | true =>
    constructor
    · intro o ho
      unfold handleAddOrder at ho
      rw [hcur] at ho
      simp at ho
    · intro h0
      rw [h0, truthyS_none] at hcur
      cases hcur
  | false =>
    have hins : (handleAddOrder st args r).inserts =
        [{ id_chat := idChatFromClient
           id_establishment := idEstablishmentFromClient
           name := args.name.getD ""
           is_pickup := false
           address := some a }] := by
      unfold handleAddOrder
      rw [hcur]
      simp only [Bool.false_eq_true, if_false, hp, haddr, Option.getD_some]
      rw [truthyS_some_of_ne a ha]
      split_ifs <;> simp_all [truthyS, ha]
    constructor
    · intro o ho
      rw [hins] at ho
      simp only [List.mem_singleton] at ho
      rw [ho]
    · intro _
      exact hins

/-- Witness for C10: pickup=true with an address forwards a delivery row. -/
theorem claim10_address_overrides_pickup_witness :
    (∀ o ∈ (handleAddOrder freshSession
        ⟨none, none, some "Ana", some true, some "Calle 1"⟩ ⟨201, "", "ord-1"⟩).inserts,
      o.is_pickup = false) ∧
    (freshSession.currentOrderId = none →
      (handleAddOrder freshSession
          ⟨none, none, some "Ana", some true, some "Calle 1"⟩ ⟨201, "", "ord-1"⟩).inserts =
        [{ id_chat := idChatFromClient
           id_establishment := idEstablishmentFromClient
           name := (some "Ana").getD ""
           is_pickup := false
           address := some "Calle 1" }]) :=
  claim10_address_overrides_pickup freshSession
    ⟨none, none, some "Ana", some true, some "Calle 1"⟩ ⟨201, "", "ord-1"⟩
    "Calle 1" rfl (by decide) rfl

/-- Forget a detail's order reference (used to compare argument lists that
differ only in caller-supplied `id_order` values). -/
def scrubOrder (d : Detail) : Detail := { d with id_order := none }

theorem coerceDetail_id_order (snap : Snapshot) (d : Detail) :
    (coerceDetail snap d).id_order = d.id_order := by
  unfold coerceDetail
  split_ifs with h
  · cases coerceMenuId (d.id_menu.getD "") snap <;> rfl
  · rfl

theorem addDetailsWithSnapshot_forwarded_shape (st : SessionState)
    (snap : Snapshot) (dets : List Detail) (ins : DetailsInsertResult)
    (l : List Detail)
    (hl : l ∈ (addDetailsWithSnapshot st snap dets ins).forwarded) :
    l = coerceDetails snap dets := by
  unfold addDetailsWithSnapshot at hl
  cases hv : validateMenuItems snap (coerceDetails snap dets) with
  | error m =>
    rw [hv] at hl
    simp at hl
  | ok u =>
    rw [hv] at hl
    split_ifs at hl <;> simpa using hl

theorem mem_coerced_setOrder (snap : Snapshot) (oid : String)
    (dets : List Detail) (d : Detail)
    (hd : d ∈ coerceDetails snap
      (dets.map (fun x => { x with id_order := some oid }))) :
    d.id_order = some oid := by
  unfold coerceDetails at hd
  rw [List.map_map] at hd
  obtain ⟨d0, _, rfl⟩ := List.mem_map.mp hd
  show (coerceDetail snap _).id_order = some oid
  rw [coerceDetail_id_order]

/-- Claim C3: `add_details_order` with no open order answers the
no-open-order failure, forwards nothing and leaves the session state
untouched; and with an open order, whenever validation of the coerced
detail list fails against the snapshot in use — the cached one, or the one
fetched when no snapshot is cached — the first validation error is
reported, nothing is forwarded to persistence and the open-order pointer
is unchanged. -/
theorem claim3_add_details_guards
    (st : SessionState) (args : Option (List Detail))
    (fetch : Except BuildError Snapshot) (ins : DetailsInsertResult) :
    (st.currentOrderId = none →
      (handleAddDetailsOrder st args fetch ins).response = .noOpenOrder ∧
      (handleAddDetailsOrder st args fetch ins).forwarded = [] ∧
      (handleAddDetailsOrder st args fetch ins).state = st) ∧
    (∀ oid snap msg, st.currentOrderId = some oid → oid ≠ "" →
      (st.lastSnapshot = some snap ∨
        (st.lastSnapshot = none ∧ fetch = .ok snap)) →
      validateMenuItems snap (coerceDetails snap
        ((args.getD []).map (fun d => { d with id_order := some oid }))) =
        .error msg →
      (handleAddDetailsOrder st args fetch ins).response =
        .validationFailure msg ∧
      (handleAddDetailsOrder st args fetch ins).forwarded = [] ∧
      (handleAddDetailsOrder st args fetch ins).state.currentOrderId =
        st.currentOrderId) := by
  constructor
  · intro h0
    unfold handleAddDetailsOrder
    rw [h0]
    simp [truthyS_none]
  · intro oid snap msg hoid hne hsnap hval
    rcases hsnap with hsnap | ⟨hnone, hfetch⟩
    · unfold handleAddDetailsOrder
      rw [hoid, truthyS_some_of_ne oid hne]
      simp only [if_true, Option.getD_some, hsnap]
      unfold addDetailsWithSnapshot
      rw [hval]
      exact ⟨rfl, rfl, hoid⟩
    · unfold handleAddDetailsOrder
      rw [hoid, truthyS_some_of_ne oid hne]
      simp only [if_true, Option.getD_some, hnone, hfetch]
      unfold addDetailsWithSnapshot
      rw [hval]
      exact ⟨rfl, rfl, hoid⟩

/-- Session with a cached snapshot and an open order. -/
def openSession : SessionState :=
  { lastSnapshot := some sampleSnapshot, currentOrderId := some "ord-1" }

/-- A detail naming a nonexistent product. -/
def badDetail : Detail :=
  { id_order := some "evil"
    id_product := some "px"
    id_menu := none
    selected_products := none
    quantity := some 1
    note := none }

/-- Session with an open order but no cached snapshot (the handler must
fetch one). -/
def fetchSession : SessionState :=
  { lastSnapshot := none, currentOrderId := some "ord-1" }

/-- Witness for C3: the no-open-order case at `freshSession`, and the
validation-failure case with a nonexistent product both at `openSession`
(cached snapshot) and at `fetchSession` (snapshot fetched). -/
theorem claim3_add_details_guards_witness :
    ((handleAddDetailsOrder freshSession (some [badDetail])
        (.error .notFound) ⟨201, ""⟩).response = .noOpenOrder ∧
      (handleAddDetailsOrder freshSession (some [badDetail])
        (.error .notFound) ⟨201, ""⟩).forwarded = [] ∧
      (handleAddDetailsOrder freshSession (some [badDetail])
        (.error .notFound) ⟨201, ""⟩).state = freshSession) ∧
    ((handleAddDetailsOrder openSession (some [badDetail])
        (.error .notFound) ⟨201, ""⟩).response =
        .validationFailure "Producto inexistente: px" ∧
      (handleAddDetailsOrder openSession (some [badDetail])
        (.error .notFound) ⟨201, ""⟩).forwarded = [] ∧
      (handleAddDetailsOrder openSession (some [badDetail])
        (.error .notFound) ⟨201, ""⟩).state.currentOrderId =
        openSession.currentOrderId) ∧
    ((handleAddDetailsOrder fetchSession (some [badDetail])
        (.ok sampleSnapshot) ⟨201, ""⟩).response =
        .validationFailure "Producto inexistente: px" ∧
      (handleAddDetailsOrder fetchSession (some [badDetail])
        (.ok sampleSnapshot) ⟨201, ""⟩).forwarded = [] ∧
      (handleAddDetailsOrder fetchSession (some [badDetail])
        (.ok sampleSnapshot) ⟨201, ""⟩).state.currentOrderId =
        fetchSession.currentOrderId) :=
  ⟨(claim3_add_details_guards freshSession (some [badDetail])
      (.error .notFound) ⟨201, ""⟩).1 rfl,
    (claim3_add_details_guards openSession (some [badDetail])
      (.error .notFound) ⟨201, ""⟩).2 "ord-1" sampleSnapshot
      "Producto inexistente: px" rfl (by decide) (Or.inl rfl) rfl,
    (claim3_add_details_guards fetchSession (some [badDetail])
      (.ok sampleSnapshot) ⟨201, ""⟩).2 "ord-1" sampleSnapshot
      "Producto inexistente: px" rfl (by decide) (Or.inr ⟨rfl, rfl⟩) rfl⟩

/-- Claim C9: while an order is open, every detail forwarded to persistence
carries the open order id regardless of caller-supplied `id_order` values,
and two argument lists equal up to their `id_order` fields forward
identical detail lists. -/
theorem claim9_details_forced_to_open_order
    (st : SessionState) (dets1 dets2 : List Detail)
    (fetch : Except BuildError Snapshot) (ins : DetailsInsertResult)
    (oid : String) (hoid : st.currentOrderId = some oid) (hne : oid ≠ "") :
    (∀ l ∈ (handleAddDetailsOrder st (some dets1) fetch ins).forwarded,
      ∀ d ∈ l, d.id_order = some oid) ∧
    (dets1.map scrubOrder = dets2.map scrubOrder →
      (handleAddDetailsOrder st (some dets1) fetch ins).forwarded =
        (handleAddDetailsOrder st (some dets2) fetch ins).forwarded) := by
  have hT : truthyS st.currentOrderId = true := by
    rw [hoid]; exact truthyS_some_of_ne oid hne
  constructor
  · intro l hl d hd
    unfold handleAddDetailsOrder at hl
    rw [hT] at hl
    simp only [if_true, Option.getD_some, hoid] at hl
    revert hl
    cases hls : st.lastSnapshot with
    | some snap =>
      intro hl
      have := addDetailsWithSnapshot_forwarded_shape _ _ _ _ _ hl
      subst this
      exact mem_coerced_setOrder snap oid dets1 d hd
    | none =>
      cases fetch with
      | error e =>
        intro hl
        simp at hl
      | ok snap =>
        intro hl
        have := addDetailsWithSnapshot_forwarded_shape _ _ _ _ _ hl
        subst this
        exact mem_coerced_setOrder snap oid dets1 d hd
  · intro hscrub
    have hmap : dets1.map (fun d => ({ d with id_order := some oid } : Detail)) =
        dets2.map (fun d => { d with id_order := some oid }) := by
      calc dets1.map (fun d => ({ d with id_order := some oid } : Detail)) =
          (dets1.map scrubOrder).map (fun d => { d with id_order := some oid }) := by
            rw [List.map_map]; rfl
        _ = (dets2.map scrubOrder).map (fun d => { d with id_order := some oid }) := by
            rw [hscrub]
        _ = dets2.map (fun d => { d with id_order := some oid }) := by
            rw [List.map_map]; rfl
    unfold handleAddDetailsOrder
    rw [hT]
    simp only [if_true, Option.getD_some, hoid, hmap]

/-- Witness for C9: two singleton argument lists differing only in
`id_order` forward the same list, every forwarded detail carrying the open
order id. -/
theorem claim9_details_forced_to_open_order_witness :
    (∀ l ∈ (handleAddDetailsOrder openSession (some [sampleMenuDetail])
        (.error .notFound) ⟨201, ""⟩).forwarded,
      ∀ d ∈ l, d.id_order = some "ord-1") ∧
    ([sampleMenuDetail].map scrubOrder =
        [{ sampleMenuDetail with id_order := some "evil" }].map scrubOrder →
      (handleAddDetailsOrder openSession (some [sampleMenuDetail])
          (.error .notFound) ⟨201, ""⟩).forwarded =
        (handleAddDetailsOrder openSession
            (some [{ sampleMenuDetail with id_order := some "evil" }])
            (.error .notFound) ⟨201, ""⟩).forwarded) :=
  claim9_details_forced_to_open_order openSession [sampleMenuDetail]
    [{ sampleMenuDetail with id_order := some "evil" }]
    (.error .notFound) ⟨201, ""⟩ "ord-1" rfl (by decide)

theorem normalizeMenu_error_of_falsy (pidx : List (String × ProductInfo))
    (m : MenuRow) (h : truthyS m.id_menu = false) :
    normalizeMenu pidx m = .error (.invalidMenu m.name) := by
  unfold normalizeMenu
  cases hm : m.id_menu with
  | none => rfl
  | some i =>
    rw [hm] at h
    simp [truthyS] at h
    simp [h]

theorem normalizeMenu_ok_of_truthy (pidx : List (String × ProductInfo))
    (m : MenuRow) (h : truthyS m.id_menu = true) :
    ∃ nm, normalizeMenu pidx m = .ok nm := by
  unfold normalizeMenu
  cases hm : m.id_menu with
  | none => rw [hm] at h; cases h
  | some i =>
    rw [hm] at h
    simp [truthyS] at h
    simp [h]

theorem normalizeMenu_options (pidx : List (String × ProductInfo))
    (row : MenuRow) (m : Menu) (h : normalizeMenu pidx row = .ok m) :
    m.options_by_category = buildOptions pidx m.allowed_product_ids := by
  unfold normalizeMenu at h
  cases hr : row.id_menu with
  | none => rw [hr] at h; cases h
  | some i =>
    rw [hr] at h
    dsimp only at h
    by_cases hi : i = ""
    · rw [if_pos hi] at h; cases h
    · rw [if_neg hi] at h
      cases h
      rfl

theorem normalizeMenus_ok_of_all (pidx : List (String × ProductInfo))
    (rows : List MenuRow) (h : ∀ m ∈ rows, truthyS m.id_menu = true) :
    ∃ l, normalizeMenus pidx rows = .ok l := by
  induction rows with
  | nil => exact ⟨[], rfl⟩
  | cons r rest ih =>
    obtain ⟨nm, hnm⟩ := normalizeMenu_ok_of_truthy pidx r
      (h r (List.mem_cons_self _ _))
    obtain ⟨l, hl⟩ := ih (fun m hm => h m (List.mem_cons_of_mem _ hm))
    exact ⟨nm :: l, by unfold normalizeMenus; rw [hnm, hl]⟩

theorem normalizeMenus_err_of_falsy (pidx : List (String × ProductInfo))
    (rows : List MenuRow) (h : ∃ m ∈ rows, truthyS m.id_menu = false) :
    ∃ nm, normalizeMenus pidx rows = .error (.invalidMenu nm) := by
  induction rows with
  | nil => simp at h
  | cons r rest ih =>
    by_cases hr : truthyS r.id_menu = true
    · obtain ⟨nm, hnm⟩ := normalizeMenu_ok_of_truthy pidx r hr
      have hex : ∃ m ∈ rest, truthyS m.id_menu = false := by
        obtain ⟨m, hm, hfal⟩ := h
        rcases List.mem_cons.mp hm with rfl | hm'
        · rw [hr] at hfal; cases hfal
        · exact ⟨m, hm', hfal⟩
      obtain ⟨bad, hbad⟩ := ih hex
      refine ⟨bad, ?_⟩
      unfold normalizeMenus
      rw [hnm, hbad]
    · have hr' : truthyS r.id_menu = false := by
        cases hb : truthyS r.id_menu
        · rfl
        · exact absurd hb hr
      refine ⟨r.name, ?_⟩
      unfold normalizeMenus
      rw [normalizeMenu_error_of_falsy pidx r hr']

theorem normalizeMenus_mem (pidx : List (String × ProductInfo))
    (rows : List MenuRow) (l : List Menu)
    (h : normalizeMenus pidx rows = .ok l) :
    ∀ m ∈ l, ∃ row ∈ rows, normalizeMenu pidx row = .ok m := by
  induction rows generalizing l with
  | nil =>
    unfold normalizeMenus at h
    cases h
    intro m hm
    simp at hm
  | cons r rest ih =>
    unfold normalizeMenus at h
    cases hr : normalizeMenu pidx r with
    | error e => rw [hr] at h; cases h
    | ok nm =>
      rw [hr] at h
      cases hrest : normalizeMenus pidx rest with
      | error e => rw [hrest] at h; cases h
      | ok l' =>
        rw [hrest] at h
        cases h
        intro m hm
        rcases List.mem_cons.mp hm with rfl | hm'
        · exact ⟨r, List.mem_cons_self _ _, hr⟩
        · obtain ⟨row, hrow, hok⟩ := ih l' hrest m hm'
          exact ⟨row, List.mem_cons_of_mem _ hrow, hok⟩

/-- Entries well-formedness invariant of an `options_by_category`
accumulator: every entry names an allowed id that resolves in
`products_index`, carries the product's name, and sits under the product's
(defaulted) category. -/
def OptEntriesOk (pidx : List (String × ProductInfo)) (allowed : List String)
    (obc : List (String × List (String × String))) : Prop :=
  ∀ co ∈ obc, ∀ x ∈ co.2,
    x.1 ∈ allowed ∧ ∃ prod, jsLookup pidx x.1 = some prod ∧ x.2 = prod.name ∧
      co.1 = catOr prod.category

theorem pushOption_entry_cases (obc : List (String × List (String × String)))
    (cat : String) (e : String × String)
    (co : String × List (String × String)) (x : String × String)
    (hco : co ∈ pushOption obc cat e) (hx : x ∈ co.2) :
    (∃ co' ∈ obc, co'.1 = co.1 ∧ x ∈ co'.2) ∨ (x = e ∧ co.1 = cat) := by
  unfold pushOption at hco
  split_ifs at hco with hany
  · obtain ⟨co', hco', heq⟩ := List.mem_map.mp hco
    by_cases hkey : co'.1 = cat
    · rw [if_pos hkey] at heq
      subst heq
      simp only at hx
      rcases List.mem_append.mp hx with hxl | hxr
      · exact Or.inl ⟨co', hco', rfl, hxl⟩
      · simp at hxr
        exact Or.inr ⟨hxr, hkey⟩
    · rw [if_neg hkey] at heq
      subst heq
      exact Or.inl ⟨co', hco', rfl, hx⟩
  · rcases List.mem_append.mp hco with hin | hnew
    · exact Or.inl ⟨co, hin, rfl, hx⟩
    · simp at hnew
      subst hnew
      simp at hx
      exact Or.inr ⟨hx, rfl⟩

theorem pushOption_preserves (obc : List (String × List (String × String)))
    (cat : String) (e : String × String) (c : String) (x : String × String)
    (h : ∃ opts, (c, opts) ∈ obc ∧ x ∈ opts) :
    ∃ opts, (c, opts) ∈ pushOption obc cat e ∧ x ∈ opts := by
  obtain ⟨opts, hmem, hx⟩ := h
  unfold pushOption
  split_ifs with hany
  · by_cases hkey : c = cat
    · refine ⟨opts ++ [e], ?_, List.mem_append_left _ hx⟩
      have := List.mem_map_of_mem
        (fun p => if p.1 = cat then (p.1, p.2 ++ [e]) else p) hmem
      simpa [hkey] using this
    · refine ⟨opts, ?_, hx⟩
      have := List.mem_map_of_mem
        (fun p => if p.1 = cat then (p.1, p.2 ++ [e]) else p) hmem
      simpa [hkey] using this
  · exact ⟨opts, List.mem_append_left _ hmem, hx⟩

theorem pushOption_mem_new (obc : List (String × List (String × String)))
    (cat : String) (e : String × String) :
    ∃ opts, (cat, opts) ∈ pushOption obc cat e ∧ e ∈ opts := by
  unfold pushOption
  split_ifs with hany
  · obtain ⟨p, hp, hpkey⟩ := List.any_eq_true.mp hany
    have hpk : p.1 = cat := by simpa using hpkey
    refine ⟨p.2 ++ [e], ?_, List.mem_append_right _ (by simp)⟩
    have := List.mem_map_of_mem
      (fun q => if q.1 = cat then (q.1, q.2 ++ [e]) else q) hp
    simpa [hpk] using this
  · exact ⟨[e], List.mem_append_right _ (by simp), by simp⟩

theorem foldl_optStep_sound (pidx : List (String × ProductInfo))
    (allowed : List String) :
    ∀ (l : List String) (obc : List (String × List (String × String))),
      (∀ pid ∈ l, pid ∈ allowed) → OptEntriesOk pidx allowed obc →
      OptEntriesOk pidx allowed (l.foldl (optStep pidx) obc) := by
  intro l
  induction l with
  | nil => intro obc _ hobc; exact hobc
  | cons pid rest ih =>
    intro obc hl hobc
    refine ih (optStep pidx obc pid)
      (fun q hq => hl q (List.mem_cons_of_mem _ hq)) ?_
    unfold optStep
    cases hp : jsLookup pidx pid with
    | none => exact hobc
    | some prod =>
      intro co hco x hx
      rcases pushOption_entry_cases obc (catOr prod.category)
          (pid, prod.name) co x hco hx with ⟨co', hco', hk, hx'⟩ | ⟨hxe, hk⟩
      · obtain ⟨ha, prod', hlook, hname, hcat⟩ := hobc co' hco' x hx'
        exact ⟨ha, prod', hlook, hname, by rw [← hk, hcat]⟩
      · subst hxe
        exact ⟨hl pid (List.mem_cons_self _ _), prod, hp, rfl, hk⟩

theorem buildOptions_sound (pidx : List (String × ProductInfo))
    (allowed : List String) :
    OptEntriesOk pidx allowed (buildOptions pidx allowed) :=
  foldl_optStep_sound pidx allowed allowed []
    (fun _ h => h) (fun co hco => by simp at hco)

theorem foldl_optStep_preserves (pidx : List (String × ProductInfo))
    (l : List String) (c : String) (x : String × String) :
    ∀ (obc : List (String × List (String × String))),
      (∃ opts, (c, opts) ∈ obc ∧ x ∈ opts) →
      ∃ opts, (c, opts) ∈ l.foldl (optStep pidx) obc ∧ x ∈ opts := by
  induction l with
  | nil => intro obc h; exact h
  | cons pid rest ih =>
    intro obc h
    refine ih (optStep pidx obc pid) ?_
    unfold optStep
    cases hp : jsLookup pidx pid with
    | none => exact h
    | some prod => exact pushOption_preserves obc _ _ c x h

theorem buildOptions_complete_aux (pidx : List (String × ProductInfo))
    (pid : String) (prod : ProductInfo)
    (h2 : jsLookup pidx pid = some prod) :
    ∀ (l : List String) (obc : List (String × List (String × String))),
      pid ∈ l →
      ∃ opts, (catOr prod.category, opts) ∈ l.foldl (optStep pidx) obc ∧
        (pid, prod.name) ∈ opts := by
  intro l
  induction l with
  | nil => intro obc h; simp at h
  | cons hd rest ih =>
    intro obc hmem
    by_cases hin : pid ∈ rest
    · exact ih (optStep pidx obc hd) hin
    · have hhd : hd = pid := by
        rcases List.mem_cons.mp hmem with h | h
        · exact h.symm
        · exact absurd h hin
      subst hhd
      refine foldl_optStep_preserves pidx rest _ _ (optStep pidx obc hd) ?_
      unfold optStep
      rw [h2]
      exact pushOption_mem_new obc _ _

theorem buildOptions_complete (pidx : List (String × ProductInfo))
    (allowed : List String) (pid : String) (prod : ProductInfo)
    (h1 : pid ∈ allowed) (h2 : jsLookup pidx pid = some prod) :
    ∃ opts, (catOr prod.category, opts) ∈ buildOptions pidx allowed ∧
      (pid, prod.name) ∈ opts :=
  buildOptions_complete_aux pidx pid prod h2 allowed [] h1

theorem buildSnapshot_ok_inv (inp : BuildInput) (now : String) (s : Snapshot)
    (h : buildSnapshot inp now = .ok s) :
    ∃ rows, inp.menus = some rows ∧
      normalizeMenus s.products_index rows = .ok s.menus := by
  unfold buildSnapshot at h
  cases he : inp.establishment with
  | none => rw [he] at h; cases h
  | some est =>
    rw [he] at h
    cases hs : inp.schedule with
    | none => rw [hs] at h; cases h
    | some sched =>
      rw [hs] at h
      cases hp : inp.products with
      | none => rw [hp] at h; cases h
      | some prods =>
        rw [hp] at h
        cases hm : inp.menus with
        | none => rw [hm] at h; cases h
        | some rows =>
          rw [hm] at h
          dsimp only at h
          revert h
          split
          · intro h; cases h
          · next nm hn =>
            intro h
            cases h
            exact ⟨rows, rfl, hn⟩

/-- Claim C7: `buildSnapshot` fails with the not-found error exactly when
the establishment record is absent, with the data-unavailable error exactly
when the establishment exists but any of hours/products/menus cannot be
retrieved, with the invalid-menu error exactly when all reads succeed but
some menu lacks a truthy `id_menu`, and returns a snapshot otherwise. -/
theorem claim7_buildSnapshot_error_taxonomy (inp : BuildInput) (now : String) :
    (outcomeKind (buildSnapshot inp now) = .notFoundK ↔
      inp.establishment = none) ∧
    (outcomeKind (buildSnapshot inp now) = .dataUnavailableK ↔
      inp.establishment ≠ none ∧
      (inp.schedule = none ∨ inp.products = none ∨ inp.menus = none)) ∧
    (outcomeKind (buildSnapshot inp now) = .invalidMenuK ↔
      inp.establishment ≠ none ∧ inp.schedule ≠ none ∧ inp.products ≠ none ∧
      ∃ rows, inp.menus = some rows ∧ ∃ m ∈ rows, truthyS m.id_menu = false) ∧
    (outcomeKind (buildSnapshot inp now) = .okK ↔
      inp.establishment ≠ none ∧ inp.schedule ≠ none ∧ inp.products ≠ none ∧
      ∃ rows, inp.menus = some rows ∧ ∀ m ∈ rows, truthyS m.id_menu = true) := by
  unfold buildSnapshot
  cases he : inp.establishment with
  | none => simp [outcomeKind]
  | some est =>
    cases hs : inp.schedule with
    | none => simp [outcomeKind]
    | some sched =>
      cases hp : inp.products with
      | none => simp [outcomeKind]
      | some prods =>
        cases hm : inp.menus with
        | none => simp [outcomeKind]
        | some rows =>
          dsimp only
          by_cases hall : ∀ m ∈ rows, truthyS m.id_menu = true
          · obtain ⟨l, hl⟩ :=
              normalizeMenus_ok_of_all (productsIndexOf prods) rows hall
            rw [hl]
            simp only [outcomeKind]
            refine ⟨by simp, by simp, ?_, ?_⟩
            · constructor
              · intro hfalse; cases hfalse
              · rintro ⟨-, -, -, rows', hrows', m, hmem, hfal⟩
                cases hrows'
                rw [hall m hmem] at hfal
                cases hfal
            · constructor
              · intro _
                exact ⟨by simp, by simp, by simp, rows, rfl, hall⟩
              · intro _
                trivial
          · have hex : ∃ m ∈ rows, truthyS m.id_menu = false := by
              push_neg at hall
              obtain ⟨m, hmem, hne⟩ := hall
              exact ⟨m, hmem, by simpa using hne⟩
            obtain ⟨nm, hnm⟩ :=
              normalizeMenus_err_of_falsy (productsIndexOf prods) rows hex
            rw [hnm]
            simp only [outcomeKind]
            refine ⟨by simp, by simp, ?_, ?_⟩
            · constructor
              · intro _
                exact ⟨by simp, by simp, by simp, rows, rfl, hex⟩
              · intro _
                trivial
            · constructor
              · intro hfalse; cases hfalse
              · rintro ⟨-, -, -, rows', hrows', hall'⟩
                cases hrows'
                obtain ⟨m, hmem, hfal⟩ := hex
                rw [hall' m hmem] at hfal
                cases hfal

/-- Witness for C7 at a concrete catalog input. -/
theorem claim7_buildSnapshot_error_taxonomy_witness :
    (outcomeKind (buildSnapshot ⟨none, none, none, none⟩ "t") = .notFoundK ↔
      (⟨none, none, none, none⟩ : BuildInput).establishment = none) ∧
    (outcomeKind (buildSnapshot ⟨none, none, none, none⟩ "t") = .dataUnavailableK ↔
      (⟨none, none, none, none⟩ : BuildInput).establishment ≠ none ∧
      ((⟨none, none, none, none⟩ : BuildInput).schedule = none ∨
        (⟨none, none, none, none⟩ : BuildInput).products = none ∨
        (⟨none, none, none, none⟩ : BuildInput).menus = none)) ∧
    (outcomeKind (buildSnapshot ⟨none, none, none, none⟩ "t") = .invalidMenuK ↔
      (⟨none, none, none, none⟩ : BuildInput).establishment ≠ none ∧
      (⟨none, none, none, none⟩ : BuildInput).schedule ≠ none ∧
      (⟨none, none, none, none⟩ : BuildInput).products ≠ none ∧
      ∃ rows, (⟨none, none, none, none⟩ : BuildInput).menus = some rows ∧
        ∃ m ∈ rows, truthyS m.id_menu = false) ∧
    (outcomeKind (buildSnapshot ⟨none, none, none, none⟩ "t") = .okK ↔
      (⟨none, none, none, none⟩ : BuildInput).establishment ≠ none ∧
      (⟨none, none, none, none⟩ : BuildInput).schedule ≠ none ∧
      (⟨none, none, none, none⟩ : BuildInput).products ≠ none ∧
      ∃ rows, (⟨none, none, none, none⟩ : BuildInput).menus = some rows ∧
        ∀ m ∈ rows, truthyS m.id_menu = true) :=
  claim7_buildSnapshot_error_taxonomy ⟨none, none, none, none⟩ "t"

/-- Menu row whose product links include an id absent from the products
read (a stale reference). -/
def staleMenuRow : MenuRow :=
  { id_menu := some "m1"
    name := "Menu 1"
    price := 10
    description := none
    category_requirements := some [("main", 1)]
    menu_product := some [⟨"m1", "p1"⟩, ⟨"m1", "stale"⟩] }

/-- Catalog input whose only menu carries a stale allowed-product link. -/
def staleInput : BuildInput :=
  { establishment := some ⟨idEstablishmentFromClient, "Bar", none, none, none⟩
    schedule := some []
    products := some [⟨"p1", "Burger", "main", 5⟩]
    menus := some [staleMenuRow] }

/-- The menu `buildSnapshot` derives from `staleMenuRow`. -/
def staleMenu : Menu :=
  { id := "m1"
    name := "Menu 1"
    price := 10
    description := none
    composition := [("main", 1)]
    allowed_product_ids := ["p1", "stale"]
    options_by_category := [("main", [("p1", "Burger")])] }

/-- The snapshot `buildSnapshot` returns on `staleInput`. -/
def staleSnapshot : Snapshot :=
  { id_establishment := idEstablishmentFromClient
    name := "Bar"
    address := none
    phone := none
    order_percent := none
    hours := []
    products := [⟨"p1", "Burger", "main", 5⟩]
    products_index := [("p1", ⟨"Burger", "main", 5⟩)]
    menus := [staleMenu]
    menus_index_by_id := [("m1", staleMenu)]
    menus_index_by_name := [("menu 1", "m1")]
    updated_at := "t" }

theorem buildSnapshot_staleInput :
    buildSnapshot staleInput "t" = .ok staleSnapshot := rfl

/-- Checker for C4's claimed invariant: does every id in every menu's
`allowed_product_ids` resolve through `products_index`? -/
def menusAllowedResolve (s : Snapshot) : Bool :=
  s.menus.all (fun m =>
    m.allowed_product_ids.all (fun pid => (jsLookup s.products_index pid).isSome))

/-- Counterexample to C4: on `staleInput` the build succeeds and yields a
snapshot in which the menu's `allowed_product_ids` contains the id
`"stale"` that does not resolve through `products_index`. -/
theorem claim4_counterexample :
    buildSnapshot staleInput "t" = .ok staleSnapshot ∧
    menusAllowedResolve staleSnapshot = false ∧
    "stale" ∈ staleMenu.allowed_product_ids ∧
    jsLookup staleSnapshot.products_index "stale" = none :=
  ⟨rfl, rfl, by decide, rfl⟩

/-- Claim C4 (amended): in every snapshot returned by `buildSnapshot`, for
every menu M, every product id appearing in `M.options_by_category` belongs
to `M.allowed_product_ids` and resolves through `products_index`; ids in
`allowed_product_ids` themselves need not resolve (unresolved ones are
merely omitted from `options_by_category`). -/
theorem claim4_amended_options_within_allowed
    (inp : BuildInput) (now : String) (s : Snapshot)
    (h : buildSnapshot inp now = .ok s) :
    ∀ m ∈ s.menus, ∀ co ∈ m.options_by_category, ∀ x ∈ co.2,
      x.1 ∈ m.allowed_product_ids ∧
      (jsLookup s.products_index x.1).isSome = true := by
  obtain ⟨rows, hrows, hnorm⟩ := buildSnapshot_ok_inv inp now s h
  intro m hm co hco x hx
  obtain ⟨row, -, hok⟩ := normalizeMenus_mem _ rows s.menus hnorm m hm
  have hopts := normalizeMenu_options _ row m hok
  rw [hopts] at hco
  obtain ⟨ha, prod, hlook, -, -⟩ :=
    buildOptions_sound s.products_index m.allowed_product_ids co hco x hx
  exact ⟨ha, by rw [hlook]; rfl⟩

/-- Witness for the amended C4 at `staleInput`, instantiated at the one
options entry of the snapshot's menu. -/
theorem claim4_amended_options_within_allowed_witness :
    ("p1", "Burger").1 ∈ staleMenu.allowed_product_ids ∧
    (jsLookup staleSnapshot.products_index ("p1", "Burger").1).isSome = true :=
  claim4_amended_options_within_allowed staleInput "t" staleSnapshot
    buildSnapshot_staleInput staleMenu (by decide)
    ("main", [("p1", "Burger")]) (by decide) ("p1", "Burger") (by decide)

/-- Menu row whose only allowed product has an empty category string. -/
def emptyCatMenuRow : MenuRow :=
  { id_menu := some "m2"
    name := "Menu 2"
    price := 5
    description := none
    category_requirements := some []
    menu_product := some [⟨"m2", "q1"⟩] }

/-- Catalog input whose only product carries the empty category string. -/
def emptyCatInput : BuildInput :=
  { establishment := some ⟨idEstablishmentFromClient, "Bar", none, none, none⟩
    schedule := some []
    products := some [⟨"q1", "Mystery", "", 3⟩]
    menus := some [emptyCatMenuRow] }

/-- The menu `buildSnapshot` derives from `emptyCatMenuRow`: the resolved
product is grouped under `"other"`, not under its own (empty) category. -/
def emptyCatMenu : Menu :=
  { id := "m2"
    name := "Menu 2"
    price := 5
    description := none
    composition := []
    allowed_product_ids := ["q1"]
    options_by_category := [("other", [("q1", "Mystery")])] }

/-- The snapshot `buildSnapshot` returns on `emptyCatInput`. -/
def emptyCatSnapshot : Snapshot :=
  { id_establishment := idEstablishmentFromClient
    name := "Bar"
    address := none
    phone := none
    order_percent := none
    hours := []
    products := [⟨"q1", "Mystery", "", 3⟩]
    products_index := [("q1", ⟨"Mystery", "", 3⟩)]
    menus := [emptyCatMenu]
    menus_index_by_id := [("m2", emptyCatMenu)]
    menus_index_by_name := [("menu 2", "m2")]
    updated_at := "t" }

/-- Counterexample to C8: on `emptyCatInput` the allowed id `"q1"` resolves
through `products_index` to a product whose category is `""`, yet it
appears in `options_by_category` only under `"other"` (snapshot.ts line 80,
`prod.category || 'other'`) — no options key equals the product's
category, so a resolved allowed id need not appear under its product's
category. -/
theorem claim8_counterexample :
    buildSnapshot emptyCatInput "t" = .ok emptyCatSnapshot ∧
    "q1" ∈ emptyCatMenu.allowed_product_ids ∧
    jsLookup emptyCatSnapshot.products_index "q1" =
      some { name := "Mystery", category := "", price := 3 } ∧
    emptyCatMenu.options_by_category = [("other", [("q1", "Mystery")])] ∧
    ∀ co ∈ emptyCatMenu.options_by_category, co.1 ≠ "" :=
  ⟨rfl, by decide, rfl, rfl, by decide⟩

/-- Claim C8 (amended): an allowed-product id missing from `products_index`
never fails the build (given the establishment, the three reads, and
truthy menu ids the build succeeds whatever the product links); an
unresolved allowed id appears nowhere in `options_by_category`, and a
resolved allowed id appears under its product's category when that
category is non-empty, and under `"other"` when the product's category is
the empty string (the `catOr` default). -/
theorem claim8_stale_allowed_ids_tolerated
    (inp : BuildInput) (now : String) (s : Snapshot) :
    (buildSnapshot inp now = .ok s →
      ∀ m ∈ s.menus,
        (∀ pid ∈ m.allowed_product_ids, jsLookup s.products_index pid = none →
          ∀ co ∈ m.options_by_category, ∀ x ∈ co.2, x.1 ≠ pid) ∧
        (∀ pid prod, pid ∈ m.allowed_product_ids →
          jsLookup s.products_index pid = some prod →
          ∃ opts, (catOr prod.category, opts) ∈ m.options_by_category ∧
            (pid, prod.name) ∈ opts)) ∧
    (inp.establishment ≠ none → inp.schedule ≠ none → inp.products ≠ none →
      ∀ rows, inp.menus = some rows →
      (∀ m ∈ rows, truthyS m.id_menu = true) →
      outcomeKind (buildSnapshot inp now) = .okK) := by
  constructor
  · intro h m hm
    obtain ⟨rows, hrows, hnorm⟩ := buildSnapshot_ok_inv inp now s h
    obtain ⟨row, -, hok⟩ := normalizeMenus_mem _ rows s.menus hnorm m hm
    have hopts := normalizeMenu_options _ row m hok
    constructor
    · intro pid hpid hnone co hco x hx
      rw [hopts] at hco
      obtain ⟨-, prod, hlook, -, -⟩ :=
        buildOptions_sound s.products_index m.allowed_product_ids co hco x hx
      intro hxeq
      rw [hxeq, hnone] at hlook
      cases hlook
    · intro pid prod hpid hlook
      have hmem := buildOptions_complete s.products_index
        m.allowed_product_ids pid prod hpid hlook
      rw [hopts]
      exact hmem
  · intro hest hsched hprods rows hrows hall
    obtain ⟨est, he⟩ := Option.ne_none_iff_exists'.mp hest
    obtain ⟨sched, hs⟩ := Option.ne_none_iff_exists'.mp hsched
    obtain ⟨prods, hp⟩ := Option.ne_none_iff_exists'.mp hprods
    unfold buildSnapshot
    rw [he, hs, hp, hrows]
    dsimp only
    obtain ⟨l, hl⟩ := normalizeMenus_ok_of_all (productsIndexOf prods) rows hall
    rw [hl]
    rfl

/-- Witness for the amended C8 at `staleInput`. -/
theorem claim8_stale_allowed_ids_tolerated_witness :
    (∀ m ∈ staleSnapshot.menus,
      (∀ pid ∈ m.allowed_product_ids,
        jsLookup staleSnapshot.products_index pid = none →
        ∀ co ∈ m.options_by_category, ∀ x ∈ co.2, x.1 ≠ pid) ∧
      (∀ pid prod, pid ∈ m.allowed_product_ids →
        jsLookup staleSnapshot.products_index pid = some prod →
        ∃ opts, (catOr prod.category, opts) ∈ m.options_by_category ∧
          (pid, prod.name) ∈ opts)) ∧
    outcomeKind (buildSnapshot staleInput "t") = .okK :=
  ⟨(claim8_stale_allowed_ids_tolerated staleInput "t" staleSnapshot).1
      buildSnapshot_staleInput,
    (claim8_stale_allowed_ids_tolerated staleInput "t" staleSnapshot).2
      (by simp [staleInput]) (by simp [staleInput]) (by simp [staleInput])
      [staleMenuRow] rfl (by decide)⟩

end OrderAI
